import Mathlib

/-!
Verification development for the autoeditor core: the silence-interval
extractor (`silencedetector.py`) and the edit-graph compiler / cut planner
(`stage1_silencecutterfade.py`).

Timestamps and durations are embedded as rationals (`ℚ`): the Python code
computes with floats, and all properties below concern the exact arithmetic
the source expressions denote.  Fallible Python code (raised exceptions,
failed assertions) is embedded with `Except`.
-/

/-! ## Constants from `stage1_silencecutterfade.py` (lines 20-23) -/

/-- Constant `MAX_SILENCE_LENGTH = 3`. -/
def MAX_SILENCE_LENGTH : ℚ := 3

/-- Constant `START_SILENCE_LENGTH = (MAX_SILENCE_LENGTH * 3) / 4` (true division, = 2.25). -/
def START_SILENCE_LENGTH : ℚ := (MAX_SILENCE_LENGTH * 3) / 4

/-- Constant `END_SILENCE_LENGTH = MAX_SILENCE_LENGTH - START_SILENCE_LENGTH` (= 0.75). -/
def END_SILENCE_LENGTH : ℚ := MAX_SILENCE_LENGTH - START_SILENCE_LENGTH

/-- Constant `FADE_LENGTH = 0.5`. -/
def FADE_LENGTH : ℚ := 0.5

/-! ## `silencedetector.py`: the silence-interval extractor -/

/-- The exception raised by `Silence.update_end` when the reported duration is
off by more than 0.1 seconds (silencedetector.py line 114).  The spec calls it
`DurationMismatchError`. -/
inductive DetectError where
  | durationMismatch
  deriving DecidableEq

/-- The `Silence` record (silencedetector.py lines 100-114): a dict with keys
`start`, `end`, `duration`.  The key `end` is rendered here as `endTime`
(`end` is a Lean keyword). -/
structure Silence where
  start : ℚ
  endTime : ℚ
  duration : ℚ
  deriving DecidableEq

/-- Method `Silence.update_end` (silencedetector.py lines 105-114): record the end
timestamp and reported duration, then raise when
`abs((end - start) - duration) > 0.1`.  On success the completed record is
returned. -/
def update_end (start endTime duration : ℚ) : Except DetectError Silence :=
  let calc_duration := endTime - start
  let duration_error := |calc_duration - duration|
  if duration_error > 1/10 then .error .durationMismatch
  else .ok ⟨start, endTime, duration⟩

/-- A line of the ffmpeg silencedetect log, embedded by its classification
under the two regexes `SILENCE_START_RE` and `SILENCE_END_RE`
(silencedetector.py lines 37-38).  The literal fragments `silence_start:` and
`silence_end:` make the two patterns mutually exclusive, so each line matches
at most one of them; any other line is noise. -/
inductive LogLine where
  | startEvent (ts : ℚ)
  | endEvent (ts reportedDuration : ℚ)
  | noise
  deriving DecidableEq

/-- The scanner state of `SilenceDetectedVideo.silences` (lines 76-78):
`expecting_start = True` with no pending record, or `expecting_start = False`
holding the pending record's `start` timestamp. -/
inductive ScanState where
  | awaitingStart
  | awaitingEnd (start : ℚ)
  deriving DecidableEq

/-- The line loop of `SilenceDetectedVideo.silences` (silencedetector.py
lines 81-97).  In `awaitingStart` only a start event is acted on (all other
lines, including end events, fail the start regex and are skipped); in
`awaitingEnd` only an end event is acted on, completing the pending record via
`update_end` and appending it.  End of input returns the accumulated list
(a pending incomplete record is dropped). -/
def silencesLoop : List LogLine → ScanState → List Silence → Except DetectError (List Silence)
  | [], _, acc => .ok acc
  | line :: rest, .awaitingStart, acc =>
    match line with
    | .startEvent ts => silencesLoop rest (.awaitingEnd ts) acc
    | _ => silencesLoop rest .awaitingStart acc
  | line :: rest, .awaitingEnd startTs, acc =>
    match line with
    | .endEvent ts d =>
      match update_end startTs ts d with
      | .error e => .error e
      | .ok sil => silencesLoop rest .awaitingStart (acc ++ [sil])
    | _ => silencesLoop rest (.awaitingEnd startTs) acc

/-- Method `SilenceDetectedVideo.silences` (lines 72-97) on an already-classified
log. -/
def silencesM (log : List LogLine) : Except DetectError (List Silence) :=
  silencesLoop log .awaitingStart []

/-! ## `stage1_silencecutterfade.py`: the stream algebra

The shared counter lives in the one `StartStream` per compilation run
(`next = -1`; `next_id` pre-increments, so the first identifier handed out
is 0).  Every other node's `next_id` delegates to its source, hence
ultimately to the `StartStream`.  We embed the counter (together with the
list of identifiers assigned so far, in assignment order, and the `streams`
list that `silencecutterfade` accumulates) as explicit state `PState`, and
the nodes themselves as a tree. -/

/-- The stream nodes built by the planner: `InputStream` (the single source
reference; stores `audio_stream_id`), `PtsTrim` (kwargs `start`/`end`), and
`Crossfade` (fade-out and fade-in predecessors).  `StartStream` is not a
graph node (it emits nothing and only owns the counter); `Concat` appears
once, at the root, and is embedded separately as `CNode`. -/
inductive SNode where
  | inputStream (sid : Nat) (audioStreamId : Nat)
  | ptsTrim (src : SNode) (startTs endTs : ℚ) (sid : Nat)
  | crossfade (fadeOut fadeIn : SNode) (sid : Nat)
  deriving DecidableEq

/-- Field `self.stream_id` of a node. -/
def SNode.sid : SNode → Nat
  | .inputStream i _ => i
  | .ptsTrim _ _ _ i => i
  | .crossfade _ _ i => i

/-- Field `self.video_id`: the string `"[v{id}]"` from `BaseStream.__init__`, overridden by
`InputStream` to `"[{id}:v:0]"`. -/
def SNode.videoId : SNode → String
  | .inputStream i _ => "[" ++ toString i ++ ":v:0]"
  | n => "[v" ++ toString n.sid ++ "]"

/-- Field `self.audio_id`: the string `"[a{id}]"`, overridden by `InputStream` to
`"[{id}:a:{audio_stream_id}]"`. -/
def SNode.audioId : SNode → String
  | .inputStream i a => "[" ++ toString i ++ ":a:" ++ toString a ++ "]"
  | n => "[a" ++ toString n.sid ++ "]"

/-- Method `PtsTrim.duration` (lines 247-248): `kwargs["end"] - kwargs["start"]`.
The source defines `duration` only on `PtsTrim` (calling it on another node
would fail); the planner only applies it to trims, and we give the other
kinds the neutral value 0. -/
def SNode.duration : SNode → ℚ
  | .ptsTrim _ st en _ => en - st
  | _ => 0

/-- Value `kwargs["start"]` of a trim (0 on other kinds, see `SNode.duration`). -/
def SNode.trimStart : SNode → ℚ
  | .ptsTrim _ st _ _ => st
  | _ => 0

/-- Value `kwargs["end"]` of a trim (0 on other kinds, see `SNode.duration`). -/
def SNode.trimEnd : SNode → ℚ
  | .ptsTrim _ _ en _ => en
  | _ => 0

/-- Whether the node is a `PtsTrim`. -/
def SNode.isTrim : SNode → Bool
  | .ptsTrim _ _ _ _ => true
  | _ => false

/-- The predecessors a node's `filters` recurses into before emitting its own
expressions: `PtsTrim.filters` first calls `self.src.filters`,
`Crossfade.filters` first calls `self.fade_out.filters` then
`self.fade_in.filters`.  `InputStream.filters` delegates to
`StartStream.filters`, which emits nothing. -/
def SNode.preds : SNode → List SNode
  | .inputStream _ _ => []
  | .ptsTrim src _ _ _ => [src]
  | .crossfade fo fi _ => [fo, fi]

/-- One emitted filter expression, embedded structurally: each constructor is
one format string of the source with its interpolated values as fields. -/
inductive FExpr where
  | videoTrim (srcVideoId selfVideoId : String) (startTs endTs : ℚ)
  | audioTrim (srcAudioId selfAudioId : String) (startTs endTs : ℚ)
  | concatExpr (ids : List String) (numStreams : Nat) (selfVideoId selfAudioId : String)
  | fadeoutAlpha (fadeOutVideoId : String) (sid : Nat) (dur : ℚ)
  | fadeoutFifo (sid : Nat)
  | fadeinAlpha (fadeInVideoId : String) (sid : Nat) (dur : ℚ)
  | fadeinFifo (sid : Nat)
  | overlay (sid : Nat) (selfVideoId : String)
  | audioCrossfade (fadeOutAudioId fadeInAudioId : String) (dur : ℚ) (selfAudioId : String)
  deriving DecidableEq

/-- The expressions a node appends for itself, factored out of `filters`:
`PtsTrim.filters` extends with `[video_trim, audio_trim]` (lines 230-241),
`Crossfade.filters` with the five video expressions and the audio crossfade
(lines 283-307), `InputStream.filters` appends nothing. -/
def SNode.own : SNode → List FExpr
  | .inputStream _ _ => []
  | .ptsTrim src st en i =>
    [.videoTrim src.videoId ("[v" ++ toString i ++ "]") st en,
     .audioTrim src.audioId ("[a" ++ toString i ++ "]") st en]
  | .crossfade fo fi i =>
    [.fadeoutAlpha fo.videoId i FADE_LENGTH,
     .fadeoutFifo i,
     .fadeinAlpha fi.videoId i FADE_LENGTH,
     .fadeinFifo i,
     .overlay i ("[v" ++ toString i ++ "]"),
     .audioCrossfade fo.audioId fi.audioId FADE_LENGTH ("[a" ++ toString i ++ "]")]

/-- Method `filters(self, filter_list)`: the Python methods mutate `filter_list` in
place; we thread it.  Each node first lets its predecessors emit, then
appends its own expressions (`SNode.own`). -/
def SNode.filters : SNode → List FExpr → List FExpr
  | .inputStream _ _, l => l
  | .ptsTrim src st en i, l => src.filters l ++ SNode.own (.ptsTrim src st en i)
  | .crossfade fo fi i, l => fi.filters (fo.filters l) ++ SNode.own (.crossfade fo fi i)

/-- The expressions a whole subtree emits when invoked on an empty list. -/
def SNode.emit (n : SNode) : List FExpr := n.filters []

/-- The root `Concat` node (`Concat(*streams)` is only ever applied to the
accumulated top-level `streams` list, at line 67). -/
structure CNode where
  streams : List SNode
  sid : Nat
  deriving DecidableEq

/-- Label `"[v{id}]"` of the concat node. -/
def CNode.videoId (g : CNode) : String := "[v" ++ toString g.sid ++ "]"

/-- Label `"[a{id}]"` of the concat node. -/
def CNode.audioId (g : CNode) : String := "[a" ++ toString g.sid ++ "]"

/-- The concat expression `Concat.filters` appends after all its streams have
emitted (lines 259-267): the interleaved video/audio ids of the streams, the
stream count, and the node's own labels. -/
def CNode.own (g : CNode) : List FExpr :=
  [.concatExpr ((g.streams.map fun st => [st.videoId, st.audioId]).flatten)
    g.streams.length g.videoId g.audioId]

/-- Method `Concat.filters` (lines 259-267): let every stream emit, in order, then
append the concat expression. -/
def CNode.filters (g : CNode) (l : List FExpr) : List FExpr :=
  (g.streams.foldl (fun acc st => st.filters acc) l) ++ g.own

/-- Function `generate_filter_complex` (lines 151-158) invokes the root's `filters` on
a fresh list; this is the assembled, ordered expression list. -/
def CNode.emitAll (g : CNode) : List FExpr := g.filters []

/-! ## Construction state: the shared counter and the `streams` list -/

/-- The mutable state of one compilation run: the `StartStream` counter
(holding the next identifier to assign; Python keeps `next = stream_id = -1`
and pre-increments, so the first `next_id()` call returns 0), the list of
identifiers assigned so far in assignment order, and the `streams` list that
`silencecutterfade` accumulates (line 42). -/
structure PState where
  counter : Nat
  trace : List Nat
  streams : List SNode
  deriving DecidableEq

/-- Method `StartStream.next_id` (lines 182-184): assign the next identifier and
bump the counter, recording the assignment. -/
def PState.alloc (s : PState) : Nat × PState :=
  (s.counter, { s with counter := s.counter + 1, trace := s.trace ++ [s.counter] })

/-- Constructor `InputStream.__init__` (lines 194-200): consumes one identifier from the
shared counter (via `src.next_id()`, `src` being the `StartStream`). -/
def mkInputStream (audioStreamId : Nat) (s : PState) : SNode × PState :=
  let (i, s1) := s.alloc
  (.inputStream i audioStreamId, s1)

/-- Constructor `PtsTrim.__init__` (lines 212-216, 226-228): consumes one identifier via
`src.next_id()`, which delegates to the shared counter. -/
def mkPtsTrim (src : SNode) (startTs endTs : ℚ) (s : PState) : SNode × PState :=
  let (i, s1) := s.alloc
  (.ptsTrim src startTs endTs i, s1)

/-- Fatal compilation errors: the failed assertion
`fade_out.duration() == fade_in.duration()` in `Crossfade.__init__`
(line 272; the spec calls it `CrossfadeDurationMismatchError`), and the
`IndexError` `Concat(*streams)` would raise on an empty stream list
(`self.streams[0].next_id()`, line 256). -/
inductive CompileError where
  | crossfadeDurationMismatch
  | emptyStreams
  deriving DecidableEq

/-- Constructor `Crossfade.__init__` (lines 271-277): validate
`fade_out.duration() == fade_in.duration()` first (a failure aborts
construction before any identifier is consumed or any expression exists),
then consume one identifier via `fade_out.next_id()`. -/
def mkCrossfade (fadeOut fadeIn : SNode) (s : PState) : Except CompileError (SNode × PState) :=
  if fadeOut.duration = fadeIn.duration then
    let (i, s1) := s.alloc
    .ok (.crossfade fadeOut fadeIn i, s1)
  else .error .crossfadeDurationMismatch

/-- Constructor `Concat.__init__` (lines 252-257): consumes one identifier via
`streams[0].next_id()` (delegating to the shared counter).  The caller
(`silencecutterfadeGraph`) checks non-emptiness, mirroring the `IndexError`
on an empty list. -/
def mkConcat (streams : List SNode) (s : PState) : CNode × PState :=
  let (i, s1) := s.alloc
  ({ streams := streams, sid := i }, s1)

/-! ## The cut planner: `do_crossfade_main` and the `silencecutterfade` loop -/

/-- Lines 124-134 of `do_crossfade_main`: the adjusted fade-out duration for
one boundary.  If the remaining span is too short
(`start_ts + fade_out_duration >= end_ts - FADE_LENGTH`) it is
`end_ts - (start_ts + fade_out_duration)`, else the default `FADE_LENGTH`;
when `do_fade_out` is false it is then overwritten with 0. -/
def newFadeOut (startTs endTs fadeOutDuration : ℚ) (doFadeOut : Bool) : ℚ :=
  let n := if startTs + fadeOutDuration ≥ endTs - FADE_LENGTH
           then endTs - (startTs + fadeOutDuration) else FADE_LENGTH
  if doFadeOut then n else 0

/-- Lines 124-148 of `do_crossfade_main`: build the main clip
`[start_ts + fade_out_duration, end_ts - new_fade_out)` (the trim is
constructed — consuming an identifier — regardless of whether it is kept),
append it only when its duration is positive, and build the next fade-out
trim `[end_ts - new_fade_out, end_ts)` when `do_fade_out` is set. -/
def mainAndFadeOut (stream : SNode) (startTs endTs fadeOutDuration : ℚ)
    (s : PState) (doFadeOut : Bool) : Option SNode × PState :=
  let nfo := newFadeOut startTs endTs fadeOutDuration doFadeOut
  let (mainClip, s1) := mkPtsTrim stream (startTs + fadeOutDuration) (endTs - nfo) s
  let s2 := if mainClip.duration > 0
            then { s1 with streams := s1.streams ++ [mainClip] } else s1
  if doFadeOut then
    let (fadeOut, s3) := mkPtsTrim stream (endTs - nfo) endTs s2
    (some fadeOut, s3)
  else (none, s2)

/-- Function `do_crossfade_main` (lines 107-148).  When a pending fade-out exists, its
duration is read off its kwargs (`fade_out.kwargs["end"] -
fade_out.kwargs["start"]`), the fade-in trim
`[start_ts, start_ts + fade_out_duration)` is built, the two are combined
into a `Crossfade` (whose constructor validates the equal-duration
precondition) and appended to `streams`; otherwise the fade-out duration
is 0.  Then the main clip and next fade-out are handled by
`mainAndFadeOut`. -/
def doCrossfadeMain (stream : SNode) (startTs endTs : ℚ) (fadeOut : Option SNode)
    (s : PState) (doFadeOut : Bool) : Except CompileError (Option SNode × PState) :=
  match fadeOut with
  | some fo =>
    let fadeOutDuration := fo.trimEnd - fo.trimStart
    let (fadeIn, s1) := mkPtsTrim stream startTs (startTs + fadeOutDuration) s
    match mkCrossfade fo fadeIn s1 with
    | .error e => .error e
    | .ok (crossFade, s2) =>
      .ok (mainAndFadeOut stream startTs endTs fadeOutDuration
            { s2 with streams := s2.streams ++ [crossFade] } doFadeOut)
  | none => .ok (mainAndFadeOut stream startTs endTs 0 s doFadeOut)

/-- The `for (index, silence) in enumerate(silences)` loop of
`silencecutterfade` (lines 45-54): each silence yields the boundary
`end_ts = silence["start"] + START_SILENCE_LENGTH`, runs
`do_crossfade_main`, and continues from
`start_ts = silence["end"] - END_SILENCE_LENGTH`. -/
def planLoop (stream : SNode) : List Silence → ℚ → Option SNode → PState →
    Except CompileError (ℚ × Option SNode × PState)
  | [], startTs, fadeOut, s => .ok (startTs, fadeOut, s)
  | sil :: rest, startTs, fadeOut, s =>
    match doCrossfadeMain stream startTs (sil.start + START_SILENCE_LENGTH) fadeOut s true with
    | .error e => .error e
    | .ok (fadeOut2, s2) => planLoop stream rest (sil.endTime - END_SILENCE_LENGTH) fadeOut2 s2

/-- The graph-building part of `silencecutterfade` (lines 38-67): create the
`StartStream` (the fresh counter) and the `InputStream`, run the loop over
the silences from `start_ts = 0` with no pending fade-out, run the final
boundary `end_ts = video_duration` with `do_fade_out=False`, and concatenate
the accumulated streams. -/
def silencecutterfadeGraph (silences : List Silence) (videoDuration : ℚ)
    (audioStreamId : Nat) : Except CompileError (CNode × PState) :=
  let s0 : PState := { counter := 0, trace := [], streams := [] }
  let (combinedStream, s1) := mkInputStream audioStreamId s0
  match planLoop combinedStream silences 0 none s1 with
  | .error e => .error e
  | .ok (startTs, fadeOut, s2) =>
    match doCrossfadeMain combinedStream startTs videoDuration fadeOut s2 false with
    | .error e => .error e
    | .ok (_, s3) =>
      match s3.streams with
      | [] => .error .emptyStreams
      | _ => .ok (mkConcat s3.streams s3)

/-! ## Observation helpers over compiled graphs -/

/-- Project the compiled graph out of a compilation result. -/
def graphOf (r : Except CompileError (CNode × PState)) : Option CNode :=
  match r with
  | .ok (g, _) => some g
  | .error _ => none

/-- Project the final construction state out of a compilation result. -/
def stateOf (r : Except CompileError (CNode × PState)) : Option PState :=
  match r with
  | .ok (_, s) => some s
  | .error _ => none

/-- A human-readable summary of one top-level segment: a kept clip with its
trim bounds, or a crossfade with the bounds of its fade-out and fade-in
trims. -/
inductive SegDesc where
  | clip (startTs endTs : ℚ)
  | cross (outStart outEnd inStart inEnd : ℚ)
  | other
  deriving DecidableEq

/-- Summarize a top-level stream node as a `SegDesc`. -/
def SNode.desc : SNode → SegDesc
  | .ptsTrim _ st en _ => .clip st en
  | .crossfade fo fi _ => .cross fo.trimStart fo.trimEnd fi.trimStart fi.trimEnd
  | .inputStream _ _ => .other

/-- Whether the subtree contains a trim whose `end` is strictly below its
`start` (a negative-duration trim). -/
def SNode.hasNegTrim : SNode → Bool
  | .inputStream _ _ => false
  | .ptsTrim src st en _ => decide (en < st) || src.hasNegTrim
  | .crossfade fo fi _ => fo.hasNegTrim || fi.hasNegTrim

/-- All identifiers occurring in the subtree, with multiplicity, one entry
per occurrence of a node in the unfolding of the (possibly sharing)
reference structure. -/
def SNode.ids : SNode → List Nat
  | .inputStream i _ => [i]
  | .ptsTrim src _ _ i => src.ids ++ [i]
  | .crossfade fo fi i => fo.ids ++ fi.ids ++ [i]

/-- All node occurrences of the subtree (post-order). -/
def SNode.subnodes : SNode → List SNode
  | .inputStream i a => [.inputStream i a]
  | .ptsTrim src st en i => src.subnodes ++ [.ptsTrim src st en i]
  | .crossfade fo fi i => fo.subnodes ++ fi.subnodes ++ [.crossfade fo fi i]

/-- The identifiers of a node's direct predecessors. -/
def SNode.predSids (n : SNode) : List Nat := n.preds.map SNode.sid

/-- All node occurrences of a compiled graph (the concat root excluded). -/
def CNode.allNodes (g : CNode) : List SNode := (g.streams.map SNode.subnodes).flatten

/-- All identifiers of a compiled graph with multiplicity, root included. -/
def CNode.allIds (g : CNode) : List Nat := (g.streams.map SNode.ids).flatten ++ [g.sid]

/-- Every predecessor reference in the graph, by identifier: each node
occurrence lists the ids of its direct predecessors, and the concat root
lists its streams. -/
def CNode.childSids (g : CNode) : List Nat :=
  (g.allNodes.map SNode.predSids).flatten ++ g.streams.map SNode.sid

/-- How many predecessor references point at identifier `k`: the number of
nodes that have the node with id `k` as a direct predecessor (counting a
parent twice if it references `k` twice). -/
def parentCount (g : CNode) (k : Nat) : Nat := g.childSids.count k

/-- The identifiers tracked by the planner state: those of the accumulated
`streams` plus those of the pending fade-out trim. -/
def stateIds (streams : List SNode) (fadeOut : Option SNode) : List Nat :=
  (streams.map SNode.ids).flatten ++ (match fadeOut with | some f => f.ids | none => [])


/-- Identifiers of the pending fade-out slot. -/
def foIds : Option SNode → List Nat
  | some f => f.ids
  | none => []

/-- The invariant the planner maintains along one compilation run: the trace
is exactly the identifiers `0, 1, ..., counter-1` in order; every identifier
reachable from the accumulated streams or the pending fade-out is below the
counter; every nonzero identifier occurs at most once among them (the input
stream, id 0, is shared); and every top-level trim kept in `streams` has
positive duration. -/
structure GoodState (fadeOut : Option SNode) (s : PState) : Prop where
  trace_eq : s.trace = List.range' 0 s.counter
  counter_pos : 0 < s.counter
  ids_lt : ∀ k ∈ stateIds s.streams fadeOut, k < s.counter
  ids_once : ∀ k, k ≠ 0 → (stateIds s.streams fadeOut).count k ≤ 1
  trims_pos : ∀ n ∈ s.streams, n.isTrim = true → 0 < n.duration

/-- Relation: `n` occurs in the subtree of `m` (reflexively). -/
inductive EmitSub : SNode → SNode → Prop where
  | refl (n : SNode) : EmitSub n n
  | trimStep (n src : SNode) (st en : ℚ) (i : Nat) :
      EmitSub n src → EmitSub n (.ptsTrim src st en i)
  | cfOutStep (n fo fi : SNode) (i : Nat) :
      EmitSub n fo → EmitSub n (.crossfade fo fi i)
  | cfInStep (n fo fi : SNode) (i : Nat) :
      EmitSub n fi → EmitSub n (.crossfade fo fi i)

/-- Relation: `n` is a node of the compiled graph `g`. -/
def SubnodeC (n : SNode) (g : CNode) : Prop := ∃ m ∈ g.streams, EmitSub n m

/-- Whether a compilation result is the crossfade duration-mismatch
failure. -/
def hitsCrossfadeMismatch (r : Except CompileError (CNode × PState)) : Bool :=
  match r with
  | .error .crossfadeDurationMismatch => true
  | _ => false

deriving instance DecidableEq for Except

theorem SNode.duration_eq (n : SNode) : n.duration = n.trimEnd - n.trimStart := by
  cases n <;> simp [SNode.duration, SNode.trimEnd, SNode.trimStart]


/-! ## Extractor theorems -/

theorem silencesLoop_tolerance (log : List LogLine) :
    ∀ (st : ScanState) (acc res : List Silence),
      (∀ sil ∈ acc, |(sil.endTime - sil.start) - sil.duration| ≤ 1/10) →
      silencesLoop log st acc = .ok res →
      ∀ sil ∈ res, |(sil.endTime - sil.start) - sil.duration| ≤ 1/10 := by
  induction log with
  | nil =>
    intro st acc res hacc h
    simp only [silencesLoop, Except.ok.injEq] at h
    exact h ▸ hacc
  | cons line rest ih =>
    intro st acc res hacc h
    cases st with
    | awaitingStart =>
      cases line with
      | startEvent ts => exact ih _ _ _ hacc h
      | endEvent ts d => exact ih _ _ _ hacc h
      | noise => exact ih _ _ _ hacc h
    | awaitingEnd s0 =>
      cases line with
      | startEvent ts => exact ih _ _ _ hacc h
      | noise => exact ih _ _ _ hacc h
      | endEvent ts d =>
        simp only [silencesLoop] at h
        cases hud : update_end s0 ts d with
        | error e => rw [hud] at h; cases h
        | ok sil =>
          rw [hud] at h
          refine ih _ _ _ ?_ h
          intro x hx
          rcases List.mem_append.mp hx with hx | hx
          · exact hacc x hx
          · rcases List.mem_singleton.mp hx with rfl
            revert hud
            simp only [update_end]
            split
            · intro hud; cases hud
            · rename_i hle
              intro hud
              injection hud with h2
              subst h2
              simpa using not_lt.mp hle

/-- C4: completing a parsed silence interval with end timestamp and reported
duration raises `DurationMismatchError` exactly when
`|(end - start) - reported_duration| > 0.1`; when the discrepancy is at most
0.1 the interval is accepted and appended to the output sequence, so every
extracted interval satisfies the tolerance invariant. -/
theorem c4_duration_mismatch_tolerance :
    (∀ start endTime duration : ℚ,
        (update_end start endTime duration = .error .durationMismatch ↔
          |(endTime - start) - duration| > 1/10) ∧
        (|(endTime - start) - duration| ≤ 1/10 →
          update_end start endTime duration = .ok ⟨start, endTime, duration⟩)) ∧
    (∀ (rest : List LogLine) (startTs ts d : ℚ) (acc : List Silence),
        |(ts - startTs) - d| ≤ 1/10 →
        silencesLoop (.endEvent ts d :: rest) (.awaitingEnd startTs) acc =
          silencesLoop rest .awaitingStart (acc ++ [⟨startTs, ts, d⟩])) ∧
    (∀ (log : List LogLine) (res : List Silence),
        silencesM log = .ok res →
        ∀ sil ∈ res, |(sil.endTime - sil.start) - sil.duration| ≤ 1/10) := by
  refine ⟨fun start endTime duration => ⟨?_, ?_⟩, ?_, ?_⟩
  · simp only [update_end]
    split
    · rename_i hgt
      simpa using hgt
    · rename_i hle
      simp only [reduceCtorEq, false_iff]
      exact hle
  · intro h
    simp only [update_end]
    rw [if_neg (not_lt.mpr h)]
  · intro rest startTs ts d acc h
    simp only [silencesLoop, update_end]
    rw [if_neg (not_lt.mpr h)]
  · intro log res h sil hs
    exact silencesLoop_tolerance log .awaitingStart [] res (by simp) h sil hs

/-- Witness for C4, at spec Scenario A: the log pair `start=10`,
`end=13.2`, `duration=3.2` is accepted and the extracted interval satisfies
the tolerance invariant. -/
theorem c4_duration_mismatch_tolerance_witness :
    |(((66:ℚ)/5) - 10) - 16/5| ≤ 1/10 :=
  c4_duration_mismatch_tolerance.2.2 [.startEvent 10, .endEvent (66/5) (16/5)]
    [⟨10, 66/5, 16/5⟩] (by norm_num [silencesM, silencesLoop, update_end])
    ⟨10, 66/5, 16/5⟩ (List.mem_singleton.mpr rfl)

/-- C8 counterexample: on a log consisting of a single end-of-silence event
(with no preceding start), `silences` returns normally with the empty list —
the end line simply fails the start regex and is skipped — rather than
raising any `MalformedLogError` (no such error exists in the source). -/
theorem c8_counterexample : silencesM [.endEvent 5 1] = .ok [] := rfl

/-- C8 (amended): an end-of-silence event encountered while the scanner is in
the `AwaitingStart` state is ignored — the scanner skips the line, keeps its
state and accumulator unchanged, and raises nothing. -/
theorem c8_end_before_start_ignored (ts d : ℚ) (rest : List LogLine) (acc : List Silence) :
    silencesLoop (.endEvent ts d :: rest) .awaitingStart acc =
      silencesLoop rest .awaitingStart acc := rfl

/-! ## Emission-order lemmas (graph output assembly) -/

/-- Emission `filters` only ever appends: invoking a node's emission on an
accumulator extends it with exactly the node's fresh emission. -/
theorem SNode.filters_append (n : SNode) : ∀ l, n.filters l = l ++ n.filters [] := by
  induction n with
  | inputStream i a => intro l; simp [SNode.filters]
  | ptsTrim src st en i ih =>
    intro l
    simp only [SNode.filters]
    rw [ih l, ih []]
    simp
  | crossfade fo fi i ihfo ihfi =>
    intro l
    simp only [SNode.filters]
    rw [ihfo l, ihfi (l ++ fo.filters []), ihfi (fo.filters [])]
    simp

theorem SNode.emit_trim (src : SNode) (st en : ℚ) (i : Nat) :
    SNode.emit (.ptsTrim src st en i) = src.emit ++ SNode.own (.ptsTrim src st en i) := by
  simp [SNode.emit, SNode.filters]

theorem SNode.emit_cf (fo fi : SNode) (i : Nat) :
    SNode.emit (.crossfade fo fi i) =
      fo.emit ++ fi.emit ++ SNode.own (.crossfade fo fi i) := by
  simp [SNode.emit, SNode.filters, SNode.filters_append fi (SNode.filters fo [])]

/-- A node's fresh emission is its predecessors' emissions, in order,
followed by its own expressions. -/
theorem SNode.emit_decomp (n : SNode) :
    n.emit = (n.preds.map SNode.emit).flatten ++ n.own := by
  cases n with
  | inputStream i a => simp [SNode.emit, SNode.filters, SNode.preds, SNode.own]
  | ptsTrim src st en i => simp [SNode.emit_trim, SNode.preds]
  | crossfade fo fi i => simp [SNode.emit_cf, SNode.preds]

theorem foldl_filters (streams : List SNode) : ∀ l,
    streams.foldl (fun acc st => st.filters acc) l =
      l ++ (streams.map SNode.emit).flatten := by
  induction streams with
  | nil => intro l; simp
  | cons st rest ih =>
    intro l
    simp only [List.foldl_cons, List.map_cons, List.flatten_cons]
    rw [SNode.filters_append st l, ih]
    simp [SNode.emit]

/-- The assembled expression list is the streams' emissions in order,
followed by the concat expression. -/
theorem CNode.emitAll_decomp (g : CNode) :
    g.emitAll = (g.streams.map SNode.emit).flatten ++ g.own := by
  simp [CNode.emitAll, CNode.filters, foldl_filters]

theorem EmitSub.emit_infix {n m : SNode} (h : EmitSub n m) :
    ∃ A B, m.emit = A ++ n.emit ++ B := by
  induction h with
  | refl => exact ⟨[], [], by simp⟩
  | trimStep src st en i hsub ih =>
    obtain ⟨A, B, hAB⟩ := ih
    refine ⟨A, B ++ SNode.own (.ptsTrim src st en i), ?_⟩
    rw [SNode.emit_trim, hAB]
    simp
  | cfOutStep fo fi i hsub ih =>
    obtain ⟨A, B, hAB⟩ := ih
    refine ⟨A, B ++ fi.emit ++ SNode.own (.crossfade fo fi i), ?_⟩
    rw [SNode.emit_cf, hAB]
    simp
  | cfInStep fo fi i hsub ih =>
    obtain ⟨A, B, hAB⟩ := ih
    refine ⟨fo.emit ++ A, B ++ SNode.own (.crossfade fo fi i), ?_⟩
    rw [SNode.emit_cf, hAB]
    simp

theorem mem_streams_emit_infix {m : SNode} {g : CNode} (h : m ∈ g.streams) :
    ∃ A B, g.emitAll = A ++ m.emit ++ B := by
  obtain ⟨l1, l2, hsplit⟩ := List.append_of_mem h
  refine ⟨(l1.map SNode.emit).flatten, (l2.map SNode.emit).flatten ++ g.own, ?_⟩
  rw [CNode.emitAll_decomp, hsplit]
  simp

/-- C2: in the assembled output of a compiled graph, the expressions emitted
by each node's predecessors (`PtsTrim`'s source, `Crossfade`'s fade-out then
fade-in) all appear strictly before the node's own expressions — the node's
own expressions sit directly after the concatenation of its predecessors'
full emissions; and the root `Concat`'s own expression appears after all of
its streams' emissions. -/
theorem c2_predecessors_before_self (g : CNode) (n : SNode) (h : SubnodeC n g) :
    (∃ A B, g.emitAll = A ++ ((n.preds.map SNode.emit).flatten ++ n.own) ++ B) ∧
    g.emitAll = (g.streams.map SNode.emit).flatten ++ g.own := by
  refine ⟨?_, CNode.emitAll_decomp g⟩
  obtain ⟨m, hm, hsub⟩ := h
  obtain ⟨A1, B1, h1⟩ := mem_streams_emit_infix hm
  obtain ⟨A2, B2, h2⟩ := hsub.emit_infix
  refine ⟨A1 ++ A2, B2 ++ B1, ?_⟩
  rw [h1, h2, SNode.emit_decomp n]
  simp

/-- Witness for C2: the trim node of the graph compiled from no silences and
duration 1 has its predecessor's emission (empty, for the input stream)
directly before its own two trim expressions inside the assembled output. -/
theorem c2_predecessors_before_self_witness :
    ∃ A B, CNode.emitAll ⟨[SNode.ptsTrim (SNode.inputStream 0 0) 0 1 1], 2⟩ =
      A ++ (((SNode.ptsTrim (SNode.inputStream 0 0) 0 1 1).preds.map SNode.emit).flatten ++
        (SNode.ptsTrim (SNode.inputStream 0 0) 0 1 1).own) ++ B :=
  (c2_predecessors_before_self ⟨[SNode.ptsTrim (SNode.inputStream 0 0) 0 1 1], 2⟩
    (SNode.ptsTrim (SNode.inputStream 0 0) 0 1 1)
    ⟨SNode.ptsTrim (SNode.inputStream 0 0) 0 1 1, List.mem_singleton.mpr rfl,
      EmitSub.refl _⟩).1

/-! ## Planner state invariants -/

theorem stateIds_eq (streams : List SNode) (fadeOut : Option SNode) :
    stateIds streams fadeOut = (streams.map SNode.ids).flatten ++ foIds fadeOut := by
  cases fadeOut <;> rfl

theorem count_extend {L T : List Nat} {c cNew : Nat}
    (h0 : 0 < c)
    (hL : ∀ k ∈ L, k < c) (hLc : ∀ k, k ≠ 0 → L.count k ≤ 1)
    (hT : ∀ k ∈ T, k = 0 ∨ (c ≤ k ∧ k < cNew))
    (hTc : ∀ k, k ≠ 0 → T.count k ≤ 1) (hc : c ≤ cNew) :
    (∀ k ∈ L ++ T, k < cNew) ∧ (∀ k, k ≠ 0 → (L ++ T).count k ≤ 1) := by
  constructor
  · intro k hk
    rcases List.mem_append.mp hk with hk | hk
    · exact lt_of_lt_of_le (hL k hk) hc
    · rcases hT k hk with rfl | ⟨h1, h2⟩
      · exact lt_of_lt_of_le h0 hc
      · exact h2
  · intro k hk
    rw [List.count_append]
    by_cases hkc : k < c
    · have hz : T.count k = 0 := by
        rw [List.count_eq_zero]
        intro hmem
        rcases hT k hmem with rfl | ⟨h1, _⟩
        · exact hk rfl
        · omega
      rw [hz]
      simpa using hLc k hk
    · have hz : L.count k = 0 := by
        rw [List.count_eq_zero]
        intro hmem
        exact hkc (hL k hmem)
      rw [hz]
      simpa using hTc k hk

theorem goodState_mk {fo2 : Option SNode} {s2 : PState} {c : Nat} (L T : List Nat)
    (hids : stateIds s2.streams fo2 = L ++ T)
    (htrace : s2.trace = List.range' 0 s2.counter)
    (h0 : 0 < c) (hc2 : c ≤ s2.counter)
    (hL : ∀ k ∈ L, k < c) (hLc : ∀ k, k ≠ 0 → L.count k ≤ 1)
    (hT : ∀ k ∈ T, k = 0 ∨ (c ≤ k ∧ k < s2.counter))
    (hTc : ∀ k, k ≠ 0 → T.count k ≤ 1)
    (htp : ∀ n ∈ s2.streams, n.isTrim = true → 0 < n.duration) :
    GoodState fo2 s2 := by
  obtain ⟨hlt, honce⟩ := count_extend h0 hL hLc hT hTc hc2
  refine ⟨htrace, lt_of_lt_of_le h0 hc2, ?_, ?_, htp⟩
  · rw [hids]; exact hlt
  · intro k hk; rw [hids]; exact honce k hk

theorem mainAndFadeOut_good {s : PState} (stream : SNode) (hstream : stream.ids = [0])
    (a b fod : ℚ) (dof : Bool) (hg : GoodState none s) :
    ∃ fo2 s2, mainAndFadeOut stream a b fod s dof = (fo2, s2) ∧
      GoodState fo2 s2 ∧ s.counter ≤ s2.counter ∧ (dof = false → fo2 = none) := by
  obtain ⟨ht, hp, hlt, honce, htp⟩ := hg
  rw [stateIds_eq] at hlt honce
  simp only [foIds, List.append_nil] at hlt honce
  have hrange : s.trace ++ [s.counter] = List.range' 0 (s.counter + 1) := by
    rw [ht, List.range'_1_concat]; simp
  have hrange2 : s.trace ++ [s.counter] ++ [s.counter + 1] = List.range' 0 (s.counter + 2) := by
    have h1 : List.range' 0 (s.counter + 2) = List.range' 0 (s.counter + 1) ++ [s.counter + 1] := by
      simpa using List.range'_1_concat 0 (s.counter + 1)
    rw [h1, ← hrange]
  by_cases hpos :
      (SNode.ptsTrim stream (a + fod) (b - newFadeOut a b fod dof) s.counter).duration > 0
  · cases dof with
    | true =>
      refine ⟨some (.ptsTrim stream (b - newFadeOut a b fod true) b (s.counter + 1)),
        { counter := s.counter + 2,
          trace := s.trace ++ [s.counter] ++ [s.counter + 1],
          streams := s.streams ++
            [.ptsTrim stream (a + fod) (b - newFadeOut a b fod true) s.counter] },
        ?_, ?_, by simp, by simp⟩
      · simp only [mainAndFadeOut, mkPtsTrim, PState.alloc, if_pos hpos, if_true]
      · refine goodState_mk (c := s.counter) ((s.streams.map SNode.ids).flatten)
          [0, s.counter, 0, s.counter + 1] ?_ ?_ hp (by simp) hlt honce ?_ ?_ ?_
        · rw [stateIds_eq]
          simp [foIds, SNode.ids, hstream]
        · simpa using hrange2
        · intro k hk
          simp only [List.mem_cons, List.not_mem_nil, or_false] at hk
          rcases hk with rfl | rfl | rfl | rfl <;> simp
        · intro k hk
          simp only [List.count_cons, List.count_nil, beq_iff_eq]
          split_ifs <;> omega
        · intro n hn htr
          rcases List.mem_append.mp hn with hn | hn
          · exact htp n hn htr
          · rcases List.mem_singleton.mp hn with rfl
            exact hpos
    | false =>
      refine ⟨none,
        { counter := s.counter + 1,
          trace := s.trace ++ [s.counter],
          streams := s.streams ++
            [.ptsTrim stream (a + fod) (b - newFadeOut a b fod false) s.counter] },
        ?_, ?_, by simp, fun _ => rfl⟩
      · simp [mainAndFadeOut, mkPtsTrim, PState.alloc, hpos]
      · refine goodState_mk (c := s.counter) ((s.streams.map SNode.ids).flatten)
          [0, s.counter] ?_ ?_ hp (by simp) hlt honce ?_ ?_ ?_
        · rw [stateIds_eq]
          simp [foIds, SNode.ids, hstream]
        · simpa using hrange
        · intro k hk
          simp only [List.mem_cons, List.not_mem_nil, or_false] at hk
          rcases hk with rfl | rfl <;> simp
        · intro k hk
          simp only [List.count_cons, List.count_nil, beq_iff_eq]
          split_ifs <;> omega
        · intro n hn htr
          rcases List.mem_append.mp hn with hn | hn
          · exact htp n hn htr
          · rcases List.mem_singleton.mp hn with rfl
            exact hpos
  · cases dof with
    | true =>
      refine ⟨some (.ptsTrim stream (b - newFadeOut a b fod true) b (s.counter + 1)),
        { counter := s.counter + 2,
          trace := s.trace ++ [s.counter] ++ [s.counter + 1],
          streams := s.streams },
        ?_, ?_, by simp, by simp⟩
      · simp only [mainAndFadeOut, mkPtsTrim, PState.alloc, if_neg hpos, if_true]
      · refine goodState_mk (c := s.counter) ((s.streams.map SNode.ids).flatten)
          [0, s.counter + 1] ?_ ?_ hp (by simp) hlt honce ?_ ?_ htp
        · rw [stateIds_eq]
          simp [foIds, SNode.ids, hstream]
        · simpa using hrange2
        · intro k hk
          simp only [List.mem_cons, List.not_mem_nil, or_false] at hk
          rcases hk with rfl | rfl <;> simp
        · intro k hk
          simp only [List.count_cons, List.count_nil, beq_iff_eq]
          split_ifs <;> omega
    | false =>
      refine ⟨none,
        { counter := s.counter + 1,
          trace := s.trace ++ [s.counter],
          streams := s.streams },
        ?_, ?_, by simp, fun _ => rfl⟩
      · simp [mainAndFadeOut, mkPtsTrim, PState.alloc, hpos]
      · refine goodState_mk (c := s.counter) ((s.streams.map SNode.ids).flatten)
          [] ?_ ?_ hp (by simp) hlt honce (by simp) (by simp) htp
        · rw [stateIds_eq]
          simp [foIds]
        · simpa using hrange

/-- The crossfade branch of `do_crossfade_main` always succeeds: the fade-in
trim is built with `end = start_ts + fade_out_duration`, so its duration
equals the pending fade-out's kwargs span exactly, and the construction-time
duration check passes. -/
theorem doCrossfadeMain_some_eq (stream fo : SNode) (a b : ℚ) (s : PState) (dof : Bool) :
    doCrossfadeMain stream a b (some fo) s dof =
      .ok (mainAndFadeOut stream a b (fo.trimEnd - fo.trimStart)
        { counter := s.counter + 2,
          trace := s.trace ++ [s.counter] ++ [s.counter + 1],
          streams := s.streams ++
            [.crossfade fo (.ptsTrim stream a (a + (fo.trimEnd - fo.trimStart)) s.counter)
              (s.counter + 1)] } dof) := by
  have hd : fo.duration =
      (SNode.ptsTrim stream a (a + (fo.trimEnd - fo.trimStart)) s.counter).duration := by
    rw [SNode.duration_eq fo]
    simp [SNode.duration]
  simp [doCrossfadeMain, mkPtsTrim, mkCrossfade, PState.alloc, if_pos hd]

theorem doCrossfadeMain_good {fadeOut : Option SNode} {s : PState}
    (stream : SNode) (hstream : stream.ids = [0]) (a b : ℚ) (dof : Bool)
    (hg : GoodState fadeOut s) :
    ∃ fo2 s2, doCrossfadeMain stream a b fadeOut s dof = .ok (fo2, s2) ∧
      GoodState fo2 s2 ∧ s.counter ≤ s2.counter ∧ (dof = false → fo2 = none) := by
  cases fadeOut with
  | none =>
    obtain ⟨fo2, s2, heq, hg2, hle, hnone⟩ := mainAndFadeOut_good stream hstream a b 0 dof hg
    exact ⟨fo2, s2, by simp only [doCrossfadeMain, heq], hg2, hle, hnone⟩
  | some fo =>
    obtain ⟨ht, hp, hlt, honce, htp⟩ := hg
    rw [stateIds_eq] at hlt honce
    simp only [foIds] at hlt honce
    have hrange : s.trace ++ [s.counter] = List.range' 0 (s.counter + 1) := by
      have h1 : List.range' 0 (s.counter + 1) = List.range' 0 s.counter ++ [s.counter] := by
        simpa using List.range'_1_concat 0 s.counter
      rw [h1, ht]
    have hrange2 : s.trace ++ [s.counter] ++ [s.counter + 1] =
        List.range' 0 (s.counter + 2) := by
      have h1 : List.range' 0 (s.counter + 2) =
          List.range' 0 (s.counter + 1) ++ [s.counter + 1] := by
        simpa using List.range'_1_concat 0 (s.counter + 1)
      rw [h1, ← hrange]
    have hmid : GoodState none
        { counter := s.counter + 2,
          trace := s.trace ++ [s.counter] ++ [s.counter + 1],
          streams := s.streams ++
            [.crossfade fo (.ptsTrim stream a (a + (fo.trimEnd - fo.trimStart)) s.counter)
              (s.counter + 1)] } := by
      refine goodState_mk (c := s.counter)
        ((s.streams.map SNode.ids).flatten ++ fo.ids)
        [0, s.counter, s.counter + 1] ?_ ?_ hp (by simp) hlt honce ?_ ?_ ?_
      · rw [stateIds_eq]
        simp [foIds, SNode.ids, hstream]
      · simpa using hrange2
      · intro k hk
        simp only [List.mem_cons, List.not_mem_nil, or_false] at hk
        rcases hk with rfl | rfl | rfl <;> simp
      · intro k hk
        simp only [List.count_cons, List.count_nil, beq_iff_eq]
        split_ifs <;> omega
      · intro n hn htr
        rcases List.mem_append.mp hn with hn | hn
        · exact htp n hn htr
        · rcases List.mem_singleton.mp hn with rfl
          cases htr
    obtain ⟨fo2, s2, heq, hg2, hle, hnone⟩ :=
      mainAndFadeOut_good stream hstream a b (fo.trimEnd - fo.trimStart) dof hmid
    refine ⟨fo2, s2, ?_, hg2, ?_, hnone⟩
    · rw [doCrossfadeMain_some_eq, heq]
    · simpa using le_trans (by simp) hle

theorem planLoop_good (stream : SNode) (hstream : stream.ids = [0])
    (silences : List Silence) : ∀ (a : ℚ) (fadeOut : Option SNode) (s : PState),
    GoodState fadeOut s →
    ∃ a2 fo2 s2, planLoop stream silences a fadeOut s = .ok (a2, fo2, s2) ∧
      GoodState fo2 s2 ∧ s.counter ≤ s2.counter := by
  induction silences with
  | nil =>
    intro a fo s hg
    exact ⟨a, fo, s, rfl, hg, le_refl _⟩
  | cons sil rest ih =>
    intro a fo s hg
    obtain ⟨fo2, s2, heq, hg2, hle, _⟩ :=
      doCrossfadeMain_good stream hstream a (sil.start + START_SILENCE_LENGTH) true hg
    obtain ⟨a3, fo3, s3, heq3, hg3, hle3⟩ := ih (sil.endTime - END_SILENCE_LENGTH) fo2 s2 hg2
    exact ⟨a3, fo3, s3, by simp only [planLoop, heq, heq3], hg3, le_trans hle hle3⟩

/-- The final state of a successful compilation run satisfies the planner
invariant, with no pending fade-out, and the graph is the concat of its
streams with the last identifier. -/
theorem silencecutterfadeGraph_good (silences : List Silence) (dur : ℚ) (asid : Nat)
    {g : CNode} {s : PState} (h : silencecutterfadeGraph silences dur asid = .ok (g, s)) :
    s.trace = List.range' 0 s.counter ∧
    (∀ k ∈ g.allIds, k < s.counter) ∧
    (∀ k, k ≠ 0 → ((g.streams.map SNode.ids).flatten).count k ≤ 1) ∧
    (∀ n ∈ g.streams, n.isTrim = true → 0 < n.duration) := by
  have hg1 : GoodState none { counter := 1, trace := [0], streams := [] } := by
    refine ⟨by simp [List.range'], by simp, ?_, ?_, by simp⟩
    · intro k hk
      simp [stateIds, foIds] at hk
    · intro k hk
      simp [stateIds, foIds]
  obtain ⟨a2, fo2, s2, heq2, hg2, _⟩ :=
    planLoop_good (.inputStream 0 asid) (by simp [SNode.ids]) silences 0 none
      { counter := 1, trace := [0], streams := [] } hg1
  obtain ⟨fo3, s3, heq3, hg3, _, hnone⟩ :=
    doCrossfadeMain_good (.inputStream 0 asid) (by simp [SNode.ids]) a2 dur false hg2
  rw [hnone rfl] at heq3 hg3
  obtain ⟨ht, hp, hlt, honce, htp⟩ := hg3
  rw [stateIds_eq] at hlt honce
  simp only [foIds, List.append_nil] at hlt honce
  have hmain : silencecutterfadeGraph silences dur asid =
      match s3.streams with
      | [] => .error .emptyStreams
      | _ => .ok (mkConcat s3.streams s3) := by
    simp only [silencecutterfadeGraph, mkInputStream, PState.alloc, List.nil_append,
      Nat.zero_add, heq2, heq3]
  rw [hmain] at h
  cases hstr : s3.streams with
  | nil => rw [hstr] at h; cases h
  | cons n0 rest =>
    rw [hstr] at h
    simp only [mkConcat, PState.alloc, Except.ok.injEq, Prod.mk.injEq] at h
    obtain ⟨hgEq, hsEq⟩ := h
    have hgs : g.streams = s3.streams := by rw [← hgEq, hstr]
    have hgsid : g.sid = s3.counter := by rw [← hgEq]
    refine ⟨?_, ?_, ?_, ?_⟩
    · rw [← hsEq]
      show s3.trace ++ [s3.counter] = List.range' 0 (s3.counter + 1)
      have h1 : List.range' 0 (s3.counter + 1) =
          List.range' 0 s3.counter ++ [s3.counter] := by
        simpa using List.range'_1_concat 0 s3.counter
      rw [h1, ht]
    · intro k hk
      rw [← hsEq]
      show k < s3.counter + 1
      simp only [CNode.allIds, hgs, hgsid] at hk
      rcases List.mem_append.mp hk with hk2 | hk2
      · exact lt_of_lt_of_le (hlt k hk2) (by omega)
      · rcases List.mem_singleton.mp hk2 with rfl
        omega
    · intro k hk
      rw [hgs]
      exact honce k hk
    · intro n hn
      exact htp n (hgs ▸ hn)

/-! ## Parent counting: bridging predecessor references and id multiplicity -/

theorem subnode_pred_count (n : SNode) (k : Nat) :
    ((n.subnodes.map SNode.predSids).flatten).count k + (if n.sid = k then 1 else 0) =
      n.ids.count k := by
  induction n with
  | inputStream i a =>
    simp only [SNode.subnodes, SNode.predSids, SNode.preds, SNode.ids, SNode.sid,
      List.map_cons, List.map_nil, List.flatten, List.count_cons, List.count_nil,
      List.append_nil, beq_iff_eq]
  | ptsTrim src st en i ih =>
    simp only [SNode.subnodes, SNode.ids, SNode.sid, List.map_append, List.map_cons,
      List.map_nil, List.flatten_append, List.count_append, SNode.predSids, SNode.preds,
      List.flatten, List.count_cons, List.count_nil, List.append_nil, beq_iff_eq] at *
    split_ifs at * <;> omega
  | crossfade fo fi i ihfo ihfi =>
    simp only [SNode.subnodes, SNode.ids, SNode.sid, List.map_append, List.map_cons,
      List.map_nil, List.flatten_append, List.count_append, SNode.predSids, SNode.preds,
      List.flatten, List.count_cons, List.count_nil, List.append_nil, beq_iff_eq] at *
    split_ifs at * <;> omega

theorem streams_pred_count (l : List SNode) (k : Nat) :
    ((((l.map SNode.subnodes).flatten).map SNode.predSids).flatten).count k
      + (l.map SNode.sid).count k = ((l.map SNode.ids).flatten).count k := by
  induction l with
  | nil => simp
  | cons n rest ih =>
    have hn := subnode_pred_count n k
    simp only [List.map_cons, List.flatten_cons, List.map_append, List.flatten_append,
      List.count_append, List.count_cons, beq_iff_eq] at *
    split_ifs at * <;> omega

/-- The number of predecessor references to identifier `k` in a compiled
graph equals the number of occurrences of `k` among the streams' unfolded
identifier lists. -/
theorem parentCount_eq (g : CNode) (k : Nat) :
    parentCount g k = ((g.streams.map SNode.ids).flatten).count k := by
  have h := streams_pred_count g.streams k
  simp only [parentCount, CNode.childSids, CNode.allNodes, List.count_append]
  omega

/-- The compilation run on no silences and duration 1: one input stream
(id 0), one main clip trim (id 1), one concat (id 2). -/
theorem compile_trivial :
    silencecutterfadeGraph [] 1 0 =
      .ok (⟨[SNode.ptsTrim (SNode.inputStream 0 0) 0 1 1], 2⟩,
        ⟨3, [0, 1, 2], [SNode.ptsTrim (SNode.inputStream 0 0) 0 1 1]⟩) := by
  norm_num [silencecutterfadeGraph, mkInputStream, planLoop, doCrossfadeMain, mkPtsTrim,
    mkCrossfade, mainAndFadeOut, newFadeOut, PState.alloc, FADE_LENGTH, SNode.duration,
    mkConcat]

/-- C1: identifier assignment is strictly sequential and global — each node
construction consumes exactly one identifier from the shared counter (each
of the builders allocates exactly once), and for every compilation run the
assigned identifiers, in construction order, are exactly `0, 1, ...,
counter-1`: as many as there were constructions, pairwise distinct,
strictly increasing, and covering every identifier in the compiled graph. -/
theorem c1_sequential_unique_identifiers (silences : List Silence) (dur : ℚ) (asid : Nat)
    (g : CNode) (s : PState) (h : silencecutterfadeGraph silences dur asid = .ok (g, s)) :
    s.trace = List.range' 0 s.counter ∧
    s.trace.length = s.counter ∧
    s.trace.Pairwise (· < ·) ∧
    (∀ k ∈ g.allIds, k ∈ s.trace) := by
  obtain ⟨ht, hb, _, _⟩ := silencecutterfadeGraph_good silences dur asid h
  refine ⟨ht, by simp [ht], ?_, ?_⟩
  · rw [ht]
    exact List.pairwise_lt_range' 0 s.counter
  · intro k hk
    rw [ht, List.mem_range'_1]
    exact ⟨Nat.zero_le k, by simpa using hb k hk⟩

/-- Witness for C1: the run on no silences and duration 1 assigns the trace
`[0, 1, 2]`, which is strictly increasing. -/
theorem c1_sequential_unique_identifiers_witness :
    ([0, 1, 2] : List Nat).Pairwise (· < ·) :=
  (c1_sequential_unique_identifiers [] 1 0
    ⟨[SNode.ptsTrim (SNode.inputStream 0 0) 0 1 1], 2⟩
    ⟨3, [0, 1, 2], [SNode.ptsTrim (SNode.inputStream 0 0) 0 1 1]⟩ compile_trivial).2.2.1

/-- C7: a computed main clip of non-positive duration is silently omitted
(`mainAndFadeOut` is total — it raises nothing — and appends the main clip
exactly when its duration is positive), and consequently every main clip
kept in the compiled segment sequence has strictly positive duration. -/
theorem c7_zero_duration_clip_omitted :
    (∀ (stream : SNode) (a b fod : ℚ) (s : PState) (dof : Bool),
        (mainAndFadeOut stream a b fod s dof).2.streams =
          s.streams ++
            (if 0 < (SNode.ptsTrim stream (a + fod) (b - newFadeOut a b fod dof)
                s.counter).duration
             then [SNode.ptsTrim stream (a + fod) (b - newFadeOut a b fod dof) s.counter]
             else [])) ∧
    (∀ (silences : List Silence) (dur : ℚ) (asid : Nat) (g : CNode) (s : PState),
        silencecutterfadeGraph silences dur asid = .ok (g, s) →
        ∀ n ∈ g.streams, n.isTrim = true → 0 < n.duration) := by
  constructor
  · intro stream a b fod s dof
    by_cases hpos : 0 < (SNode.ptsTrim stream (a + fod) (b - newFadeOut a b fod dof)
        s.counter).duration
    · cases dof <;> simp [mainAndFadeOut, mkPtsTrim, PState.alloc, hpos]
    · cases dof <;> simp [mainAndFadeOut, mkPtsTrim, PState.alloc, hpos]
  · intro silences dur asid g s h
    exact (silencecutterfadeGraph_good silences dur asid h).2.2.2

/-- Witness for C7: in the run on no silences and duration 1, the kept main
clip `[0, 1)` has positive duration. -/
theorem c7_zero_duration_clip_omitted_witness :
    (0:ℚ) < (SNode.ptsTrim (SNode.inputStream 0 0) 0 1 1).duration :=
  c7_zero_duration_clip_omitted.2 [] 1 0
    ⟨[SNode.ptsTrim (SNode.inputStream 0 0) 0 1 1], 2⟩
    ⟨3, [0, 1, 2], [SNode.ptsTrim (SNode.inputStream 0 0) 0 1 1]⟩ compile_trivial
    (SNode.ptsTrim (SNode.inputStream 0 0) 0 1 1) (List.mem_singleton.mpr rfl) rfl

/-- C9 counterexample: in the graph compiled from one silence `{20, 24, 4}`
and duration 60, the node with identifier 0 — the `InputStream` source
reference, which is not the root `StartStream` — is the direct predecessor
of four nodes (all four trims reference it as their source), refuting "each
non-root node is the predecessor of at most one other node". -/
theorem c9_counterexample :
    (graphOf (silencecutterfadeGraph [⟨20, 24, 4⟩] 60 0)).map (fun g => parentCount g 0) =
        some 4 ∧ 1 < 4 := by
  constructor
  · norm_num [silencecutterfadeGraph, mkInputStream, planLoop, doCrossfadeMain, mkPtsTrim,
      mkCrossfade, mainAndFadeOut, newFadeOut, PState.alloc, FADE_LENGTH,
      START_SILENCE_LENGTH, END_SILENCE_LENGTH, MAX_SILENCE_LENGTH, SNode.duration,
      SNode.trimStart, SNode.trimEnd, mkConcat, graphOf, parentCount, CNode.childSids,
      CNode.allNodes, SNode.subnodes, SNode.predSids, SNode.preds, SNode.sid,
      Function.comp, List.count_append, List.count_cons, List.count_nil]
  · omega

/-- C9 (amended): the compiled node structure is a tree except for the shared
`InputStream`: every node whose identifier is nonzero (that is, every node
other than the single source reference, which every trim shares as its
source) is referenced as a predecessor by at most one node. -/
theorem c9_tree_except_shared_input (silences : List Silence) (dur : ℚ) (asid : Nat)
    (g : CNode) (s : PState) (h : silencecutterfadeGraph silences dur asid = .ok (g, s))
    (k : Nat) (hk : k ≠ 0) : parentCount g k ≤ 1 := by
  rw [parentCount_eq]
  exact (silencecutterfadeGraph_good silences dur asid h).2.2.1 k hk

/-- Witness for C9: in the run on no silences and duration 1, the main-clip
trim (id 1) has at most one parent. -/
theorem c9_tree_except_shared_input_witness :
    parentCount ⟨[SNode.ptsTrim (SNode.inputStream 0 0) 0 1 1], 2⟩ 1 ≤ 1 :=
  c9_tree_except_shared_input [] 1 0
    ⟨[SNode.ptsTrim (SNode.inputStream 0 0) 0 1 1], 2⟩
    ⟨3, [0, 1, 2], [SNode.ptsTrim (SNode.inputStream 0 0) 0 1 1]⟩ compile_trivial 1
    (by omega)

theorem doCrossfadeMain_ok (stream : SNode) (a b : ℚ) (fadeOut : Option SNode)
    (s : PState) (dof : Bool) :
    ∃ r, doCrossfadeMain stream a b fadeOut s dof = .ok r := by
  cases fadeOut with
  | none => exact ⟨_, rfl⟩
  | some fo => exact ⟨_, doCrossfadeMain_some_eq stream fo a b s dof⟩

theorem planLoop_ok (stream : SNode) (silences : List Silence) :
    ∀ (a : ℚ) (fadeOut : Option SNode) (s : PState),
    ∃ r, planLoop stream silences a fadeOut s = .ok r := by
  induction silences with
  | nil => intro a fo s; exact ⟨_, rfl⟩
  | cons sil rest ih =>
    intro a fo s
    obtain ⟨⟨fo2, s2⟩, heq⟩ :=
      doCrossfadeMain_ok stream a (sil.start + START_SILENCE_LENGTH) fo s true
    obtain ⟨r, heq2⟩ := ih (sil.endTime - END_SILENCE_LENGTH) fo2 s2
    exact ⟨r, by simp only [planLoop, heq, heq2]⟩

/-- C10: under exact arithmetic, the fade-in trim the planner builds has
duration exactly the pending fade-out's kwargs span (`end = start_ts +
fade_out_duration`), so `Crossfade`'s equal-duration check always passes and
no planner-driven compilation, for any silence list and total duration, ever
fails with the crossfade duration mismatch. -/
theorem c10_planner_never_hits_mismatch :
    (∀ (fo stream : SNode) (a : ℚ) (c : Nat),
        (SNode.ptsTrim stream a (a + (fo.trimEnd - fo.trimStart)) c).duration =
          fo.duration) ∧
    (∀ (silences : List Silence) (dur : ℚ) (asid : Nat),
        hitsCrossfadeMismatch (silencecutterfadeGraph silences dur asid) = false) := by
  constructor
  · intro fo stream a c
    rw [SNode.duration_eq fo]
    simp [SNode.duration]
  · intro silences dur asid
    obtain ⟨⟨a2, fo2, s2⟩, h2⟩ := planLoop_ok (.inputStream 0 asid) silences 0 none
      { counter := 1, trace := [0], streams := [] }
    obtain ⟨⟨fo3, s3⟩, h3⟩ := doCrossfadeMain_ok (.inputStream 0 asid) a2 dur fo2 s2 false
    simp only [silencecutterfadeGraph, mkInputStream, PState.alloc, List.nil_append,
      Nat.zero_add, h2, h3]
    cases hstr : s3.streams <;> simp [hitsCrossfadeMismatch]

/-- C3: `Crossfade`'s precondition `fade_out.duration() == fade_in.duration()`
is validated at construction: every successfully constructed crossfade
satisfies it, and constructing one from two trims of duration 0.4s and 0.6s
fails at construction time with the duration-mismatch error — no node is
produced, so no expression of the node is ever emitted. -/
theorem c3_crossfade_construction_check :
    (∀ (fadeOut fadeIn : SNode) (s : PState) (n : SNode) (s2 : PState),
        mkCrossfade fadeOut fadeIn s = .ok (n, s2) →
        fadeOut.duration = fadeIn.duration) ∧
    mkCrossfade (SNode.ptsTrim (SNode.inputStream 0 0) 0 (2/5) 1)
        (SNode.ptsTrim (SNode.inputStream 0 0) 0 (3/5) 2) ⟨3, [0, 1, 2], []⟩ =
      .error .crossfadeDurationMismatch := by
  constructor
  · intro fo fi s n s2 h
    by_contra hne
    simp [mkCrossfade, hne] at h
  · norm_num [mkCrossfade, SNode.duration]

/-- Witness for C3: a crossfade of two trims of equal duration 1/2 is
successfully constructed, and they indeed report equal durations. -/
theorem c3_crossfade_construction_check_witness :
    (SNode.ptsTrim (SNode.inputStream 0 0) 0 (1/2) 1).duration =
      (SNode.ptsTrim (SNode.inputStream 0 0) 1 (3/2) 2).duration :=
  c3_crossfade_construction_check.1
    (SNode.ptsTrim (SNode.inputStream 0 0) 0 (1/2) 1)
    (SNode.ptsTrim (SNode.inputStream 0 0) 1 (3/2) 2) ⟨3, [0, 1, 2], []⟩
    (SNode.crossfade (SNode.ptsTrim (SNode.inputStream 0 0) 0 (1/2) 1)
      (SNode.ptsTrim (SNode.inputStream 0 0) 1 (3/2) 2) 3) ⟨4, [0, 1, 2, 3], []⟩
    (by norm_num [mkCrossfade, SNode.duration, PState.alloc])

/-- C5 counterexample: for total duration 60, one silence `{20, 24, 4}`,
threshold 3 and the 75/25 split, the planner's first main clip is
`[0, 21.75)` — not `[0, 20.75)` as claimed — and the crossfade joins
`[21.75, 22.25]` with `[23.25, 23.75]`, the final clip being `[23.75, 60)`. -/
theorem c5_counterexample :
    (graphOf (silencecutterfadeGraph [⟨20, 24, 4⟩] 60 0)).map
        (fun g => g.streams.map SNode.desc) =
      some [.clip 0 (87/4), .cross (87/4) (89/4) (93/4) (95/4), .clip (95/4) 60] ∧
    (83 : ℚ)/4 < 87/4 := by
  constructor
  · norm_num [silencecutterfadeGraph, mkInputStream, planLoop, doCrossfadeMain, mkPtsTrim,
      mkCrossfade, mainAndFadeOut, newFadeOut, PState.alloc, FADE_LENGTH,
      START_SILENCE_LENGTH, END_SILENCE_LENGTH, MAX_SILENCE_LENGTH, SNode.duration,
      SNode.trimStart, SNode.trimEnd, mkConcat, graphOf, SNode.desc]
  · norm_num

/-- C5 (amended): for total duration 60, one silence `{20, 24, 4}`, threshold
3 and the 75/25 split, the planner yields the main clip `[0, 21.75)`, one
crossfade joining `[21.75, 22.25]` (tail of the previous clip) with
`[23.25, 23.75]` (head of the next), and the final clip `[23.75, 60)`; the
boundary pair is `end_ts = 20 + START_SILENCE_LENGTH = 22.25` and
`start_ts = 24 - END_SILENCE_LENGTH = 23.25`, the clips being inset from
these boundaries by the fade length 0.5. -/
theorem c5_scenario_b :
    (graphOf (silencecutterfadeGraph [⟨20, 24, 4⟩] 60 0)).map
        (fun g => g.streams.map SNode.desc) =
      some [.clip 0 (87/4), .cross (87/4) (89/4) (93/4) (95/4), .clip (95/4) 60] ∧
    (20 : ℚ) + START_SILENCE_LENGTH = 89/4 ∧
    (24 : ℚ) - END_SILENCE_LENGTH = 93/4 ∧
    (89 : ℚ)/4 - FADE_LENGTH = 87/4 ∧
    (93 : ℚ)/4 + FADE_LENGTH = 95/4 := by
  refine ⟨?_, ?_, ?_, ?_, ?_⟩
  · norm_num [silencecutterfadeGraph, mkInputStream, planLoop, doCrossfadeMain, mkPtsTrim,
      mkCrossfade, mainAndFadeOut, newFadeOut, PState.alloc, FADE_LENGTH,
      START_SILENCE_LENGTH, END_SILENCE_LENGTH, MAX_SILENCE_LENGTH, SNode.duration,
      SNode.trimStart, SNode.trimEnd, mkConcat, graphOf, SNode.desc]
  · norm_num [START_SILENCE_LENGTH, MAX_SILENCE_LENGTH]
  · norm_num [END_SILENCE_LENGTH, START_SILENCE_LENGTH, MAX_SILENCE_LENGTH]
  · norm_num [FADE_LENGTH]
  · norm_num [FADE_LENGTH]

/-- C6 counterexample.  First: at the final planning boundary of the run on
one silence `{5, 20, 15}` with total duration 10 — parameters `start_ts =
19.25`, `end_ts = 10`, `fade_out_duration = 0.5`, `do_fade_out = False` —
the shrink condition holds, yet the adjusted fade-out duration is set to 0,
not to `end_ts - (start_ts + fade_out_duration) = -9.75`.  Second: at a
fade-out-performing boundary with parameters `start_ts = 10.25`, `end_ts =
2.25`, `fade_out_duration = 0.5` (reached from the unordered silence list
`[{10, 11, 1}, {0, 9, 9}]`), the adjusted duration is `-8.5`, which is
negative.  Third: on that input the compiled graph indeed contains a trim
with `end < start` (the negative fade-out), refuting "never negative, for
all inputs". -/
theorem c6_counterexample :
    ((77:ℚ)/4 + 1/2 ≥ 10 - FADE_LENGTH ∧
      newFadeOut (77/4) 10 (1/2) false = 0 ∧
      (10 : ℚ) - (77/4 + 1/2) < 0) ∧
    ((41:ℚ)/4 + 1/2 ≥ 9/4 - FADE_LENGTH ∧
      newFadeOut (41/4) (9/4) (1/2) true = -17/2 ∧
      (-17 : ℚ)/2 < 0) ∧
    (graphOf (silencecutterfadeGraph [⟨10, 11, 1⟩, ⟨0, 9, 9⟩] 20 0)).map
        (fun g => g.streams.any SNode.hasNegTrim) = some true := by
  refine ⟨⟨?_, ?_, ?_⟩, ⟨?_, ?_, ?_⟩, ?_⟩
  · norm_num [FADE_LENGTH]
  · norm_num [newFadeOut, FADE_LENGTH]
  · norm_num
  · norm_num [FADE_LENGTH]
  · norm_num [newFadeOut, FADE_LENGTH]
  · norm_num
  · norm_num [silencecutterfadeGraph, mkInputStream, planLoop, doCrossfadeMain, mkPtsTrim,
      mkCrossfade, mainAndFadeOut, newFadeOut, PState.alloc, FADE_LENGTH,
      START_SILENCE_LENGTH, END_SILENCE_LENGTH, MAX_SILENCE_LENGTH, SNode.duration,
      SNode.trimStart, SNode.trimEnd, mkConcat, graphOf, SNode.hasNegTrim]

/-- C6 (amended): at a planning boundary that performs a fade-out
(`do_fade_out` true) where `start_ts + fade_out_duration >= end_ts -
FADE_LENGTH`, the adjusted fade-out duration is set to exactly
`end_ts - (start_ts + fade_out_duration)`; at the final boundary
(`do_fade_out` false) it is overwritten with 0; and the adjusted value is
nonnegative exactly when `start_ts + fade_out_duration ≤ end_ts` — so it can
be negative for inputs whose boundaries are out of order, and is never
negative when they are not. -/
theorem c6_shrunk_fade_out (startTs endTs fod : ℚ) :
    (startTs + fod ≥ endTs - FADE_LENGTH →
      newFadeOut startTs endTs fod true = endTs - (startTs + fod)) ∧
    newFadeOut startTs endTs fod false = 0 ∧
    (startTs + fod ≥ endTs - FADE_LENGTH →
      (0 ≤ newFadeOut startTs endTs fod true ↔ startTs + fod ≤ endTs)) := by
  refine ⟨?_, by simp [newFadeOut], ?_⟩
  · intro h
    simp only [newFadeOut, if_pos h, if_true]
  · intro h
    simp only [newFadeOut, if_pos h, if_true]
    exact sub_nonneg

/-- Witness for C6 (amended) at the boundary `start_ts = 0`, `end_ts = 0`,
`fade_out_duration = 0`: the shrink condition holds and the adjusted
durations are as stated. -/
theorem c6_shrunk_fade_out_witness :
    newFadeOut 0 0 0 true = 0 - (0 + 0) ∧ newFadeOut 0 0 0 false = 0 ∧
      (0 ≤ newFadeOut 0 0 0 true ↔ (0:ℚ) + 0 ≤ 0) :=
  ⟨(c6_shrunk_fade_out 0 0 0).1 (by norm_num [FADE_LENGTH]),
   (c6_shrunk_fade_out 0 0 0).2.1,
   (c6_shrunk_fade_out 0 0 0).2.2 (by norm_num [FADE_LENGTH])⟩
